import Mathlib

/-!
# Verification of the lip-sync translator core pipeline

Shallow embedding of the repository's signal-processing and messaging core:
the STT/MT token decoders (`src/unnamed/part_001`, `src/services/mt.js`),
the feature extractor (`src/unnamed/part_001`), the viseme timeline
generator and scheduler (`src/services/lipSync.js`, `src/utils/phonemes.js`),
the peer message channel (`src/services/webrtc.js`), and the dictionary
translator (`src/services/mt.js`).  JavaScript numbers are modelled by exact
rationals; JavaScript division by zero (which yields NaN / ±Infinity rather
than throwing) is modelled explicitly where a claim depends on it.
-/

namespace LipSyncTranslator

/-! ## STT token-to-text path (src/unnamed/part_001, STTService.tokensToText)

The STT vocabulary is a JSON array (id → symbol); `this.vocab[token]` is an
out-of-bounds-tolerant array index, modelled by `List.get?`.  The JS filter
`token && token !== '<sos>' && token !== '<eos>'` drops `undefined` (missing
ids, here absorbed into `filterMap`) and the falsy empty string, and the two
literal reserved symbols — but not `'<unk>'`. -/

/-- JavaScript `\s` (the whitespace class used by `trim` and `split(/\s+/)`),
restricted to the ASCII whitespace relevant here. -/
def isJsSpace (c : Char) : Bool :=
  c = ' ' || c = '\t' || c = '\n' || c = '\r'

/-- JavaScript `String.prototype.trim`: strip leading and trailing
whitespace. -/
def jsTrim (s : String) : String :=
  String.mk (((s.toList.dropWhile isJsSpace).reverse.dropWhile isJsSpace).reverse)

namespace STT

def keepSymbol (s : String) : Bool :=
  s ≠ "" && s ≠ "<sos>" && s ≠ "<eos>"

/-- The list of symbols that survive the map/filter stage of
`STTService.tokensToText`, before joining. -/
def symbols (vocab : List String) (tokens : List Nat) : List String :=
  (tokens.filterMap (fun t => vocab.get? t)).filter keepSymbol

/-- `STTService.tokensToText`: map ids to symbols, filter, join with a single
space, trim. -/
def tokensToText (vocab : List String) (tokens : List Nat) : String :=
  jsTrim (String.intercalate " " (symbols vocab tokens))

end STT

/-! ## MT token-to-text path (src/services/mt.js, MTService.tokensToText)

The MT vocabulary is an object (symbol → id); `tokensToText` first builds
`reverseVocab` by iterating `Object.entries` in insertion order, so for a
duplicated id the **last** entry wins.  Its filter also drops `'<unk>'`. -/

namespace MT

def keepWord (w : String) : Bool :=
  w ≠ "" && w ≠ "<sos>" && w ≠ "<eos>" && w ≠ "<unk>"

/-- `reverseVocab[token]`: the last entry of the vocabulary whose id is
`t`, if any. -/
def reverseLookup (entries : List (String × Nat)) (t : Nat) : Option String :=
  (entries.reverse.find? (fun p => p.2 = t)).map (fun p => p.1)

/-- The list of words surviving the map/filter stage of
`MTService.tokensToText`, before joining. -/
def symbols (entries : List (String × Nat)) (tokens : List Nat) : List String :=
  (tokens.filterMap (reverseLookup entries)).filter keepWord

/-- `MTService.tokensToText`: reverse-map ids to words, filter, join with a
single space, trim. -/
def tokensToText (entries : List (String × Nat)) (tokens : List Nat) : String :=
  jsTrim (String.intercalate " " (symbols entries tokens))

end MT

end LipSyncTranslator

namespace LipSyncTranslator

/-- **C1, counterexample.**  The claim states that `<unk>` is filtered in both
decode paths.  In the STT path it is not: with the one-symbol vocabulary
`["<unk>"]` and token sequence `[0]`, the final joined text is exactly
`"<unk>"`, so a reserved token symbol does appear in final STT text. -/
theorem c1_stt_emits_unk_counterexample :
    STT.tokensToText ["<unk>"] [0] = "<unk>" := by decide

/-- **C1, amended.**  Both decode paths filter `<sos>` and `<eos>` before
joining; the MT path additionally filters `<unk>`, but the STT path does not
filter `<unk>`.  Formally: `<sos>`/`<eos>` never survive the STT filter, and
no reserved symbol survives the MT filter. -/
theorem c1_reserved_filtered :
    (∀ (vocab : List String) (tokens : List Nat),
      "<sos>" ∉ STT.symbols vocab tokens ∧ "<eos>" ∉ STT.symbols vocab tokens) ∧
    (∀ (entries : List (String × Nat)) (tokens : List Nat) (w : String),
      w ∈ MT.symbols entries tokens →
        w ≠ "<sos>" ∧ w ≠ "<eos>" ∧ w ≠ "<unk>") := by
  constructor
  · intro vocab tokens
    constructor <;>
      · intro hmem
        have := List.of_mem_filter hmem
        simp [STT.keepSymbol] at this
  · intro entries tokens w hmem
    have := List.of_mem_filter hmem
    simp only [MT.keepWord, Bool.and_eq_true, decide_eq_true_eq] at this
    exact ⟨this.1.1.2, this.1.2, this.2⟩

/-- **C1 witness.**  The amended theorem applied at a concrete MT vocabulary
and token sequence. -/
theorem c1_reserved_filtered_witness :
    "hola" ≠ "<sos>" ∧ "hola" ≠ "<eos>" ∧ "hola" ≠ "<unk>" :=
  c1_reserved_filtered.2 [("hola", 0)] [0] "hola" (by decide)

/-! ## Phoneme and viseme tables (src/utils/phonemes.js)

`PHONEMES` and `VISEMES` are JS object literals, modelled as association
lists in literal insertion order (the duplicated `'r'` key of the literal
collapses to one entry with the same value `'RR'`).  Note the table gap that
the source really has: `PHONEMES['i'] = 'EE'` but `VISEMES` has no `'EE'`
key, so `phonemeToViseme('i')` is `undefined` in JS — modelled as `none`. -/

def PHONEMES : List (String × String) :=
  [("i", "EE"), ("ɪ", "IH"), ("e", "EH"), ("æ", "AA"), ("ɑ", "AA"),
   ("ɔ", "AW"), ("oʊ", "OW"), ("ʊ", "UH"), ("u", "UW"), ("ʌ", "AH"),
   ("ɜr", "ER"), ("ər", "ER"),
   ("p", "PP"), ("b", "BB"), ("t", "DD"), ("d", "DD"), ("k", "KK"),
   ("g", "GG"), ("f", "FF"), ("v", "VV"), ("θ", "TH"), ("ð", "TH"),
   ("s", "SS"), ("z", "ZZ"), ("ʃ", "SH"), ("ʒ", "ZH"), ("h", "HH"),
   ("m", "MM"), ("n", "NN"), ("ŋ", "NG"), ("l", "LL"), ("r", "RR"),
   ("w", "WW"), ("j", "YY"),
   ("x", "HH"), ("ɲ", "NN"), ("ʎ", "LL"), ("ɾ", "DD")]

def VISEMES : List (String × String) :=
  [("AA", "viseme_aa"), ("IH", "viseme_ih"), ("EH", "viseme_eh"),
   ("AH", "viseme_ah"), ("AW", "viseme_aw"), ("OW", "viseme_ow"),
   ("UW", "viseme_uw"), ("UH", "viseme_uh"), ("ER", "viseme_er"),
   ("PP", "viseme_pp"), ("BB", "viseme_bb"), ("DD", "viseme_dd"),
   ("KK", "viseme_kk"), ("GG", "viseme_gg"), ("FF", "viseme_ff"),
   ("VV", "viseme_vv"), ("TH", "viseme_th"), ("SS", "viseme_ss"),
   ("ZZ", "viseme_zz"), ("SH", "viseme_sh"), ("ZH", "viseme_zh"),
   ("HH", "viseme_hh"), ("MM", "viseme_mm"), ("NN", "viseme_nn"),
   ("NG", "viseme_ng"), ("LL", "viseme_ll"), ("RR", "viseme_rr"),
   ("WW", "viseme_ww"), ("YY", "viseme_yy"), ("REST", "viseme_rest")]

/-- JavaScript `String.prototype.toLowerCase`, for the ASCII range used by
the tables. -/
def jsToLower (s : String) : String :=
  String.mk (s.toList.map Char.toLower)

/-- `phonemeToViseme`: look the lowercased phoneme up in `PHONEMES`, then the
viseme code up in `VISEMES`; unmapped phonemes resolve to `VISEMES.REST`.
The result is an `Option` because `VISEMES[viseme]` itself can be
`undefined` (the `'EE'` gap). -/
def phonemeToViseme (phoneme : String) : Option String :=
  match PHONEMES.lookup (jsToLower phoneme) with
  | some v => VISEMES.lookup v
  | none => VISEMES.lookup "REST"

/-! ### textToPhonemes (src/utils/phonemes.js lines 106-145) -/

def englishPhonemes : List (String × String) :=
  [("a", "æ"), ("e", "e"), ("i", "ɪ"), ("o", "oʊ"), ("u", "u"),
   ("th", "θ"), ("sh", "ʃ"), ("ch", "tʃ"), ("ng", "ŋ"),
   ("ar", "ɑr"), ("er", "ər"), ("or", "ɔr")]

def spanishPhonemes : List (String × String) :=
  [("a", "a"), ("e", "e"), ("i", "i"), ("o", "o"), ("u", "u"),
   ("ñ", "ɲ"), ("ll", "ʎ"), ("rr", "r"), ("j", "x")]

/-- The character scan of one word: try the two-character key first (skipping
the next character on a hit), then the single character, defaulting to the
character itself.  At the last character, JS computes `char + undefined`,
which matches no key, so only the single-character lookup applies. -/
def scanWord (pm : List (String × String)) : List Char → List String
  | [] => []
  | [c] =>
    match pm.lookup (String.mk [c]) with
    | some p => [p]
    | none => [String.mk [c]]
  | c1 :: c2 :: rest =>
    match pm.lookup (String.mk [c1, c2]) with
    | some p => p :: scanWord pm rest
    | none =>
      match pm.lookup (String.mk [c1]) with
      | some p => p :: scanWord pm (c2 :: rest)
      | none => String.mk [c1] :: scanWord pm (c2 :: rest)

/-- Worker for `splitWS`.  The flag records whether the scan is inside a
whitespace run whose boundary has already been emitted, so a maximal run
produces exactly one split point. -/
def splitWSGo : Bool → List Char → List Char → List (List Char)
  | _, [], acc => [acc.reverse]
  | inRun, c :: rest, acc =>
    if isJsSpace c then
      if inRun then splitWSGo true rest []
      else acc.reverse :: splitWSGo true rest []
    else splitWSGo false rest (c :: acc)

/-- JavaScript `text.split(/\s+/)`: split on maximal whitespace runs; a
leading (or trailing) run contributes an empty piece, matching
`" a".split(/\s+/) === ["", "a"]`. -/
def splitWS (s : List Char) : List (List Char) :=
  splitWSGo false s []

/-- `textToPhonemes`: lowercase, split into words, scan each word into
phonemes, append a `' '` word-boundary marker per word, then filter the
markers back out. -/
def textToPhonemes (text language : String) : List String :=
  let phonemeMap := if language = "es" then spanishPhonemes else englishPhonemes
  let words := splitWS (jsToLower text).toList
  (words.flatMap (fun w => scanWord phonemeMap w ++ [" "])).filter (fun p => p ≠ " ")

/-! ### generateVisemeSequence and generateLipSyncFromText -/

/-- One element of the sequence returned by `generateVisemeSequence`. -/
structure VisemeRec where
  phoneme : String
  viseme : Option String
  duration : ℚ
  deriving DecidableEq, Repr

/-- `generateVisemeSequence` (src/utils/phonemes.js lines 153-166): one
record per phoneme, default duration 0.1 s. -/
def generateVisemeSequence (text language : String) : List VisemeRec :=
  (textToPhonemes text language).map (fun p => ⟨p, phonemeToViseme p, 1/10⟩)

/-- One element of the timed sequence returned by
`LipSyncService.generateLipSyncFromText`. -/
structure TimedViseme where
  phoneme : String
  viseme : Option String
  duration : ℚ
  startTime : ℚ
  endTime : ℚ
  deriving DecidableEq, Repr

/-- `LipSyncService.generateLipSyncFromText` (src/services/lipSync.js lines
37-49): distribute `duration` evenly over the viseme records.  (For zero
records, JS computes `duration / 0 = Infinity` but maps over an empty array,
so the quotient is never used; the Lean `/ 0 = 0` convention is likewise
unused.) -/
def generateLipSyncFromText (text language : String) (duration : ℚ) : List TimedViseme :=
  let visemes := generateVisemeSequence text language
  let visemeDuration := duration / (visemes.length : ℚ)
  visemes.mapIdx (fun index v =>
    ⟨v.phoneme, v.viseme, v.duration,
      (index : ℚ) * visemeDuration, ((index : ℚ) + 1) * visemeDuration⟩)

/-- The spans of the timed sequence are all equal to the quotient `Δ`. -/
theorem timed_spans_replicate (vs : List VisemeRec) (Δ : ℚ) :
    ((vs.mapIdx (fun index v =>
        (⟨v.phoneme, v.viseme, v.duration,
          (index : ℚ) * Δ, ((index : ℚ) + 1) * Δ⟩ : TimedViseme))).map
      (fun e => e.endTime - e.startTime)) = List.replicate vs.length Δ := by
  rw [List.eq_replicate_iff]
  refine ⟨by simp, ?_⟩
  intro b hb
  obtain ⟨e, he, rfl⟩ := List.exists_of_mem_map hb
  obtain ⟨i, hi, rfl⟩ := List.exists_of_mem_mapIdx he
  ring

end LipSyncTranslator

namespace LipSyncTranslator

/-- **C5 (confirmed).**  For a text with `N ≥ 1` phonemes and total duration
`D`, `generateLipSyncFromText` produces exactly `N` events; event `i` spans
`[i·(D/N), (i+1)·(D/N))`; consecutive events are contiguous; and the spans
sum to `D`. -/
theorem c5_viseme_timeline (text language : String) (D : ℚ)
    (hN : 1 ≤ (textToPhonemes text language).length) :
    (generateLipSyncFromText text language D).length
        = (textToPhonemes text language).length ∧
    (∀ i (h : i < (generateLipSyncFromText text language D).length),
      ((generateLipSyncFromText text language D).get ⟨i, h⟩).startTime
          = (i : ℚ) * (D / ((textToPhonemes text language).length : ℚ)) ∧
      ((generateLipSyncFromText text language D).get ⟨i, h⟩).endTime
          = ((i : ℚ) + 1) * (D / ((textToPhonemes text language).length : ℚ))) ∧
    (∀ i (h : i + 1 < (generateLipSyncFromText text language D).length),
      ((generateLipSyncFromText text language D).get ⟨i, Nat.lt_of_succ_lt h⟩).endTime
          = ((generateLipSyncFromText text language D).get ⟨i + 1, h⟩).startTime) ∧
    ((generateLipSyncFromText text language D).map
        (fun e => e.endTime - e.startTime)).sum = D := by
  have hlen : (generateVisemeSequence text language).length
      = (textToPhonemes text language).length := by
    simp [generateVisemeSequence]
  have hlen' : (generateLipSyncFromText text language D).length
      = (textToPhonemes text language).length := by
    simp [generateLipSyncFromText, hlen]
  have hget : ∀ i (h : i < (generateLipSyncFromText text language D).length),
      ((generateLipSyncFromText text language D).get ⟨i, h⟩).startTime
          = (i : ℚ) * (D / ((textToPhonemes text language).length : ℚ)) ∧
      ((generateLipSyncFromText text language D).get ⟨i, h⟩).endTime
          = ((i : ℚ) + 1) * (D / ((textToPhonemes text language).length : ℚ)) := by
    intro i h
    have h' : i < (generateVisemeSequence text language).length := by
      rw [hlen]; exact hlen' ▸ h
    unfold generateLipSyncFromText
    rw [List.get_mapIdx _ _ i (by rw [hlen]; exact hlen' ▸ h)]
    constructor <;> simp [hlen]
  refine ⟨hlen', hget, ?_, ?_⟩
  · intro i h
    have h1 := (hget i (Nat.lt_of_succ_lt h)).2
    have h2 := (hget (i + 1) h).1
    rw [h1, h2]
    push_cast
    ring
  · unfold generateLipSyncFromText
    rw [timed_spans_replicate, List.sum_replicate, nsmul_eq_mul, hlen]
    have hne : ((textToPhonemes text language).length : ℚ) ≠ 0 :=
      Nat.cast_ne_zero.mpr (Nat.one_le_iff_ne_zero.mp hN)
    field_simp

/-- **C5 witness.**  The theorem applied to the text `"hi"` (two phonemes)
with duration 1. -/
theorem c5_viseme_timeline_witness :
    ((generateLipSyncFromText "hi" "en" 1).map
      (fun e => e.endTime - e.startTime)).sum = 1 :=
  (c5_viseme_timeline "hi" "en" 1 (by decide)).2.2.2

/-- **C9 (confirmed).**  A text whose phoneme tokenization is empty yields an
empty viseme sequence and an empty timed sequence; both functions are total,
so no error is raised. -/
theorem c9_zero_phonemes (text language : String) (D : ℚ)
    (h : textToPhonemes text language = []) :
    generateVisemeSequence text language = [] ∧
    generateLipSyncFromText text language D = [] := by
  have hv : generateVisemeSequence text language = [] := by
    simp [generateVisemeSequence, h]
  exact ⟨hv, by simp [generateLipSyncFromText, hv]⟩

/-- **C9 witness.**  The theorem applied to the empty string. -/
theorem c9_zero_phonemes_witness :
    generateVisemeSequence "" "en" = [] ∧ generateLipSyncFromText "" "en" 2 = [] :=
  c9_zero_phonemes "" "en" 2 (by decide)

/-! ## Lip-sync scheduler (src/services/lipSync.js, LipSyncService.animate)

Mutable service state: `currentViseme` (a string, or `undefined` when an
event's viseme field was `undefined`), the pending `visemeQueue` and the
`isPlaying` flag.  One `animate()` tick at clock time `t`:
find the first event whose half-open interval contains `t`; if its viseme
differs from `currentViseme`, `setViseme` emits it; drop events with
`endTime ≤ t`; if the queue became empty, `stopLipSync()` clears the flag
and force-emits `viseme_rest`. -/

structure SchedState where
  currentViseme : Option String
  visemeQueue : List TimedViseme
  isPlaying : Bool
  deriving DecidableEq, Repr

/-- The find predicate of `animate`:
`currentTime >= viseme.startTime && currentTime < viseme.endTime`. -/
def inWindow (t : ℚ) (v : TimedViseme) : Bool :=
  decide (v.startTime ≤ t) && decide (t < v.endTime)

/-- One `animate()` tick at clock time `t`, returning the successor state
and the list of `onVisemeChange` notifications it emits, in order. -/
def animateTick (s : SchedState) (t : ℚ) : SchedState × List (Option String) :=
  if s.isPlaying = false then (s, [])
  else
    let found := s.visemeQueue.find? (inWindow t)
    let s1 : SchedState :=
      match found with
      | some v => if v.viseme ≠ s.currentViseme then { s with currentViseme := v.viseme } else s
      | none => s
    let e1 : List (Option String) :=
      match found with
      | some v => if v.viseme ≠ s.currentViseme then [v.viseme] else []
      | none => []
    let q2 := s1.visemeQueue.filter (fun v => decide (t < v.endTime))
    if q2.isEmpty then
      ({ currentViseme := some "viseme_rest", visemeQueue := q2, isPlaying := false },
        e1 ++ [some "viseme_rest"])
    else ({ s1 with visemeQueue := q2 }, e1)

/-- **C6 (confirmed).**  On any tick of a `Playing` scheduler: (a) every
notification is either the viseme of the (first) event whose interval
contains the clock time, emitted only because it differs from the previously
emitted viseme, or the forced `viseme_rest` of the `Playing → Idle`
transition; (b) if the containing event carries the same sustained viseme,
the tick emits nothing at all (no redundant notification); (c) once every
queued event has `endTime ≤ t`, the tick transitions to Idle and force-emits
`viseme_rest`. -/
theorem c6_scheduler_tick (s : SchedState) (t : ℚ) (hp : s.isPlaying = true) :
    (∀ e ∈ (animateTick s t).2,
      (∃ v, s.visemeQueue.find? (inWindow t) = some v ∧ e = v.viseme ∧
        v.viseme ≠ s.currentViseme) ∨
      (e = some "viseme_rest" ∧ (animateTick s t).1.isPlaying = false)) ∧
    (∀ v, s.visemeQueue.find? (inWindow t) = some v → v.viseme = s.currentViseme →
      (animateTick s t).2 = []) ∧
    ((∀ v ∈ s.visemeQueue, v.endTime ≤ t) →
      (animateTick s t).1.isPlaying = false ∧
      (animateTick s t).2 = [some "viseme_rest"] ∧
      (animateTick s t).1.currentViseme = some "viseme_rest") := by
  refine ⟨?_, ?_, ?_⟩
  · intro e he
    unfold animateTick at he ⊢
    rw [hp] at he ⊢
    simp only [Bool.true_eq_false, if_false] at he ⊢
    rcases hfind : s.visemeQueue.find? (inWindow t) with _ | v <;>
        simp only [hfind] at he ⊢
    · split at he <;> simp_all
    · by_cases hv : v.viseme = s.currentViseme
      · simp only [hv, ne_eq, not_true_eq_false, if_neg, ite_false] at he ⊢
        split at he <;> simp_all
      · simp only [ne_eq, hv, not_false_eq_true, if_pos, ite_true] at he ⊢
        split at he <;> simp_all [or_comm]
  · intro v hfind hv
    unfold animateTick
    rw [hp]
    simp only [Bool.true_eq_false, if_false, hfind, hv, ne_eq, not_true_eq_false,
      ite_false]
    have hvq : v ∈ s.visemeQueue := List.mem_of_find?_eq_some hfind
    have hwin : inWindow t v = true := List.find?_some hfind
    have hlt : t < v.endTime := by
      have := (Bool.and_eq_true _ _).mp hwin
      exact of_decide_eq_true this.2
    have hmem : v ∈ s.visemeQueue.filter (fun v => decide (t < v.endTime)) :=
      List.mem_filter.mpr ⟨hvq, decide_eq_true hlt⟩
    have hne : (s.visemeQueue.filter (fun v => decide (t < v.endTime))).isEmpty = false := by
      rcases hq : s.visemeQueue.filter (fun v => decide (t < v.endTime)) with _ | _
      · rw [hq] at hmem; simp at hmem
      · simp [hq, List.isEmpty]
    simp [hne]
  · intro hall
    have hfind : s.visemeQueue.find? (inWindow t) = none := by
      rw [List.find?_eq_none]
      intro v hv
      have : ¬ t < v.endTime := not_lt.mpr (hall v hv)
      simp [inWindow, this]
    have hfilter : s.visemeQueue.filter (fun v => decide (t < v.endTime)) = [] := by
      rw [List.filter_eq_nil_iff]
      intro v hv
      simpa using not_lt.mpr (hall v hv)
    unfold animateTick
    rw [hp]
    simp [hfind, hfilter]

/-- **C6 witness.**  A `Playing` state whose single event has expired at
`t = 2`: the tick goes Idle and force-emits `viseme_rest`. -/
theorem c6_scheduler_tick_witness :
    (animateTick ⟨some "viseme_rest", [⟨"h", some "viseme_hh", 1/10, 0, 1⟩], true⟩ 2).1.isPlaying
        = false ∧
    (animateTick ⟨some "viseme_rest", [⟨"h", some "viseme_hh", 1/10, 0, 1⟩], true⟩ 2).2
        = [some "viseme_rest"] ∧
    (animateTick ⟨some "viseme_rest", [⟨"h", some "viseme_hh", 1/10, 0, 1⟩], true⟩ 2).1.currentViseme
        = some "viseme_rest" :=
  (c6_scheduler_tick ⟨some "viseme_rest", [⟨"h", some "viseme_hh", 1/10, 0, 1⟩], true⟩ 2
    rfl).2.2 (by decide)

/-! ## Peer message channel (src/services/webrtc.js)

The wire envelope is the object passed to `JSON.stringify` in `sendMessage`
and recovered by `JSON.parse` in `handleData`; the browser's
`JSON.stringify`/`JSON.parse` pair is an external collaborator and is
modelled as the identity on the JSON object, represented as an association
list of fields.  The binary audio payload travels as the base64 data-URL
string produced by `FileReader.readAsDataURL` and is decoded by
`atob(base64.split(',')[1])` (`convertBase64ToAudio` /
`AudioBufferUtils.base64ToBlob`); base64 itself is modelled by RFC 4648
semantics of those browser builtins. -/

inductive JValue where
  | jstr (s : String)
  | jnum (n : ℤ)
  deriving DecidableEq, Repr

/-- The three message envelopes of the wire format (§6 of the spec and the
object literals of `sendAudio` / `sendTranscript` / `sendTranslation`). -/
inductive Envelope where
  | audioMsg (audioField : String) (timestamp : ℤ)
  | transcript (text language : String) (timestamp : ℤ)
  | translation (original translated sourceLang targetLang : String) (timestamp : ℤ)
  deriving DecidableEq, Repr

/-- The JSON object handed to `JSON.stringify`, field for field. -/
def encodeEnvelope : Envelope → List (String × JValue)
  | .audioMsg a ts =>
      [("type", .jstr "audio"), ("audio", .jstr a), ("timestamp", .jnum ts)]
  | .transcript txt lang ts =>
      [("type", .jstr "transcript"), ("text", .jstr txt), ("language", .jstr lang),
       ("timestamp", .jnum ts)]
  | .translation o tr sl tl ts =>
      [("type", .jstr "translation"), ("original", .jstr o), ("translated", .jstr tr),
       ("sourceLang", .jstr sl), ("targetLang", .jstr tl), ("timestamp", .jnum ts)]

def jstrField (o : List (String × JValue)) (k : String) : Option String :=
  match o.lookup k with
  | some (.jstr s) => some s
  | _ => none

def jnumField (o : List (String × JValue)) (k : String) : Option ℤ :=
  match o.lookup k with
  | some (.jnum n) => some n
  | _ => none

/-- `handleData`: parse the object and dispatch on the `type` field; an
unknown type is logged and dropped (`none`). -/
def decodeEnvelope (o : List (String × JValue)) : Option Envelope :=
  match jstrField o "type" with
  | some "audio" =>
    match jstrField o "audio", jnumField o "timestamp" with
    | some a, some ts => some (.audioMsg a ts)
    | _, _ => none
  | some "transcript" =>
    match jstrField o "text", jstrField o "language", jnumField o "timestamp" with
    | some txt, some lang, some ts => some (.transcript txt lang ts)
    | _, _, _ => none
  | some "translation" =>
    match jstrField o "original", jstrField o "translated", jstrField o "sourceLang",
        jstrField o "targetLang", jnumField o "timestamp" with
    | some o1, some tr, some sl, some tl, some ts => some (.translation o1 tr sl tl ts)
    | _, _, _, _, _ => none
  | _ => none

/-! ### Base64 (browser `btoa`/`atob` + `FileReader.readAsDataURL`) -/

def b64Alphabet : List Char :=
  "ABCDEFGHIJKLMNOPQRSTUVWXYZabcdefghijklmnopqrstuvwxyz0123456789+/".toList

def sextetToChar (n : Nat) : Char :=
  b64Alphabet.getD n 'A'

def charToSextet (c : Char) : Nat :=
  b64Alphabet.indexOf c

/-- Base64-encode a byte sequence (values `< 256`), with `=` padding. -/
def b64EncodeBytes : List Nat → List Char
  | [] => []
  | [a] => [sextetToChar (a / 4), sextetToChar (a % 4 * 16), '=', '=']
  | [a, b] => [sextetToChar (a / 4), sextetToChar (a % 4 * 16 + b / 16),
               sextetToChar (b % 16 * 4), '=']
  | a :: b :: c :: rest =>
      sextetToChar (a / 4) :: sextetToChar (a % 4 * 16 + b / 16) ::
      sextetToChar (b % 16 * 4 + c / 64) :: sextetToChar (c % 64) ::
      b64EncodeBytes rest

/-- Base64-decode (`atob` composed with per-character `charCodeAt`, as in
`base64ToBlob`). -/
def b64DecodeChars : List Char → List Nat
  | c1 :: c2 :: c3 :: c4 :: rest =>
    if c3 = '=' then [charToSextet c1 * 4 + charToSextet c2 / 16]
    else if c4 = '=' then
      [charToSextet c1 * 4 + charToSextet c2 / 16,
       charToSextet c2 % 16 * 16 + charToSextet c3 / 4]
    else (charToSextet c1 * 4 + charToSextet c2 / 16) ::
         (charToSextet c2 % 16 * 16 + charToSextet c3 / 4) ::
         (charToSextet c3 % 4 * 64 + charToSextet c4) :: b64DecodeChars rest
  | _ => []

/-- `FileReader.readAsDataURL` on an `audio/wav` blob: a data-URL whose
base64 payload follows the first comma. -/
def blobToBase64 (bytes : List Nat) : List Char :=
  "data:audio/wav;base64,".toList ++ b64EncodeBytes bytes

/-- `base64.split(',')[1]`: the segment strictly between the first comma and
the following comma (or end). -/
def splitCommaSecond (s : List Char) : List Char :=
  ((s.dropWhile (fun c => c ≠ ',')).drop 1).takeWhile (fun c => c ≠ ',')

/-- `convertBase64ToAudio` / `AudioBufferUtils.base64ToBlob`: strip the
data-URL header, `atob`, and collect the character codes as bytes. -/
def base64ToBlob (s : List Char) : List Nat :=
  b64DecodeChars (splitCommaSecond s)

/-! ### Channel state and the guarded send paths -/

structure ChannelState where
  isConnected : Bool
  hasPeer : Bool
  sentData : List (List (String × JValue))
  deriving DecidableEq, Repr

/-- `sendMessage`: guarded by `!this.isConnected || !this.peer`; on success
the serialized message is handed to `peer.send`. -/
def sendMessage (s : ChannelState) (m : List (String × JValue)) : ChannelState :=
  if s.isConnected = false ∨ s.hasPeer = false then s
  else { s with sentData := s.sentData ++ [m] }

/-- `sendAudio`: guard, base64-convert the payload, then `sendMessage`. -/
def sendAudio (s : ChannelState) (bytes : List Nat) (ts : ℤ) : ChannelState :=
  if s.isConnected = false ∨ s.hasPeer = false then s
  else sendMessage s (encodeEnvelope (.audioMsg (String.mk (blobToBase64 bytes)) ts))

/-- `sendTranscript`: guard, then `sendMessage`. -/
def sendTranscript (s : ChannelState) (txt lang : String) (ts : ℤ) : ChannelState :=
  if s.isConnected = false ∨ s.hasPeer = false then s
  else sendMessage s (encodeEnvelope (.transcript txt lang ts))

/-- `sendTranslation`: guard, then `sendMessage`. -/
def sendTranslation (s : ChannelState) (o tr sl tl : String) (ts : ℤ) : ChannelState :=
  if s.isConnected = false ∨ s.hasPeer = false then s
  else sendMessage s (encodeEnvelope (.translation o tr sl tl ts))

/-- **C7 (confirmed).**  While the channel is not connected (flag cleared or
no peer object), every send path returns the state entirely unchanged: no
bytes reach the transport log, the connection state is untouched, and
nothing is queued. -/
theorem c7_send_noop (s : ChannelState)
    (h : s.isConnected = false ∨ s.hasPeer = false)
    (bytes : List Nat) (txt lang o tr sl tl : String) (ts : ℤ)
    (m : List (String × JValue)) :
    sendAudio s bytes ts = s ∧
    sendTranscript s txt lang ts = s ∧
    sendTranslation s o tr sl tl ts = s ∧
    sendMessage s m = s := by
  refine ⟨?_, ?_, ?_, ?_⟩ <;>
    simp only [sendAudio, sendTranscript, sendTranslation, sendMessage, if_pos h]

/-- **C7 witness.**  A disconnected channel drops a transcript send. -/
theorem c7_send_noop_witness :
    sendTranscript ⟨false, true, []⟩ "hi" "en" 3 = ⟨false, true, []⟩ :=
  (c7_send_noop ⟨false, true, []⟩ (Or.inl rfl) [] "hi" "en" "" "" "" "" 3 []).2.1

/-! ### Base64 and envelope round trips (C8) -/

theorem sextetToChar_mem (n : Nat) : sextetToChar n ∈ b64Alphabet := by
  unfold sextetToChar
  by_cases h : n < b64Alphabet.length
  · rw [List.getD_eq_getElem?_getD, List.getElem?_eq_getElem h]
    exact List.getElem_mem h
  · rw [List.getD_eq_default _ _ (le_of_not_lt h)]
    decide

theorem b64Alphabet_no_specials : ∀ c ∈ b64Alphabet, c ≠ '=' ∧ c ≠ ',' := by decide

theorem sextetToChar_ne_pad (n : Nat) : sextetToChar n ≠ '=' :=
  (b64Alphabet_no_specials _ (sextetToChar_mem n)).1

theorem sextetToChar_ne_comma (n : Nat) : sextetToChar n ≠ ',' :=
  (b64Alphabet_no_specials _ (sextetToChar_mem n)).2

theorem charToSextet_sextetToChar : ∀ n < 64, charToSextet (sextetToChar n) = n := by
  decide

/-- Decoding inverts encoding on byte sequences. -/
theorem b64_decode_encode :
    ∀ (bytes : List Nat), (∀ b ∈ bytes, b < 256) →
      b64DecodeChars (b64EncodeBytes bytes) = bytes
  | [], _ => rfl
  | [a], h => by
    have ha : a < 256 := h a (by simp)
    simp only [b64EncodeBytes, b64DecodeChars, if_pos rfl]
    rw [charToSextet_sextetToChar (a / 4) (by omega),
      charToSextet_sextetToChar (a % 4 * 16) (by omega)]
    simp only [if_true, List.cons.injEq, and_true]
    omega
  | [a, b], h => by
    have ha : a < 256 := h a (by simp)
    have hb : b < 256 := h b (by simp)
    simp only [b64EncodeBytes, b64DecodeChars,
      if_neg (sextetToChar_ne_pad (b % 16 * 4)), if_pos rfl]
    rw [charToSextet_sextetToChar (a / 4) (by omega),
      charToSextet_sextetToChar (a % 4 * 16 + b / 16) (by omega),
      charToSextet_sextetToChar (b % 16 * 4) (by omega)]
    simp only [if_true, List.cons.injEq, and_true]
    omega
  | a :: b :: c :: r1 :: rest, h => by
    have ha : a < 256 := h a (by simp)
    have hb : b < 256 := h b (by simp)
    have hc : c < 256 := h c (by simp)
    have ih := b64_decode_encode (r1 :: rest) (fun x hx => h x (by simp at hx ⊢; tauto))
    simp only [b64EncodeBytes, b64DecodeChars,
      if_neg (sextetToChar_ne_pad (b % 16 * 4 + c / 64)),
      if_neg (sextetToChar_ne_pad (c % 64))]
    rw [charToSextet_sextetToChar (a / 4) (by omega),
      charToSextet_sextetToChar (a % 4 * 16 + b / 16) (by omega),
      charToSextet_sextetToChar (b % 16 * 4 + c / 64) (by omega),
      charToSextet_sextetToChar (c % 64) (by omega)]
    rw [ih]
    simp only [List.cons.injEq, and_true, true_and]
    constructor
    · omega
    · constructor <;> omega
  | [a, b, c], h => by
    have ha : a < 256 := h a (by simp)
    have hb : b < 256 := h b (by simp)
    have hc : c < 256 := h c (by simp)
    simp only [b64EncodeBytes, b64DecodeChars,
      if_neg (sextetToChar_ne_pad (b % 16 * 4 + c / 64)),
      if_neg (sextetToChar_ne_pad (c % 64))]
    rw [charToSextet_sextetToChar (a / 4) (by omega),
      charToSextet_sextetToChar (a % 4 * 16 + b / 16) (by omega),
      charToSextet_sextetToChar (b % 16 * 4 + c / 64) (by omega),
      charToSextet_sextetToChar (c % 64) (by omega)]
    simp only [List.cons.injEq, and_true, true_and]
    constructor
    · omega
    · constructor <;> omega

theorem b64Encode_ne_comma : ∀ (bytes : List Nat), ∀ e ∈ b64EncodeBytes bytes, e ≠ ','
  | [], _, hc => by simp [b64EncodeBytes] at hc
  | [a], e, hc => by
    simp only [b64EncodeBytes, List.mem_cons, List.not_mem_nil, or_false] at hc
    rcases hc with rfl | rfl | rfl | rfl
    · exact sextetToChar_ne_comma _
    · exact sextetToChar_ne_comma _
    · decide
    · decide
  | [a, b], e, hc => by
    simp only [b64EncodeBytes, List.mem_cons, List.not_mem_nil, or_false] at hc
    rcases hc with rfl | rfl | rfl | rfl
    · exact sextetToChar_ne_comma _
    · exact sextetToChar_ne_comma _
    · exact sextetToChar_ne_comma _
    · decide
  | a :: b :: c :: rest, e, hc => by
    simp only [b64EncodeBytes, List.mem_cons] at hc
    rcases hc with rfl | rfl | rfl | rfl | hmem
    · exact sextetToChar_ne_comma _
    · exact sextetToChar_ne_comma _
    · exact sextetToChar_ne_comma _
    · exact sextetToChar_ne_comma _
    · exact b64Encode_ne_comma rest e hmem

theorem dropWhile_prefix_comma :
    ∀ (p : List Char), ',' ∉ p → ∀ (tail : List Char),
      ((p ++ ',' :: tail).dropWhile (fun c => c ≠ ',')) = ',' :: tail := by
  intro p hp tail
  induction p with
  | nil => simp [List.dropWhile_cons]
  | cons c cs ih =>
    have hc : c ≠ ',' := fun hcc => hp (by simp [hcc])
    simp only [List.cons_append, List.dropWhile_cons, hc]
    simp only [ne_eq, hc, not_false_eq_true, decide_eq_true_eq, if_true, decide_True,
      if_pos]
    exact ih (fun hmem => hp (by simp [hmem]))

/-- Stripping the data-URL header recovers exactly the base64 payload. -/
theorem splitCommaSecond_blob (bytes : List Nat) :
    splitCommaSecond (blobToBase64 bytes) = b64EncodeBytes bytes := by
  unfold splitCommaSecond blobToBase64
  have hsplit : "data:audio/wav;base64,".toList
      = "data:audio/wav;base64".toList ++ [','] := by decide
  rw [hsplit, List.append_assoc, List.singleton_append,
    dropWhile_prefix_comma _ (by decide), List.drop_one, List.tail_cons,
    List.takeWhile_eq_self_iff.mpr]
  intro c hc
  simpa using b64Encode_ne_comma bytes c hc

/-- **C8 (confirmed).**  Deserializing the serialized form recovers every
envelope exactly, and the data-URL base64 pair recovers every byte sequence
(values `< 256`) exactly. -/
theorem c8_roundTrip :
    (∀ e : Envelope, decodeEnvelope (encodeEnvelope e) = some e) ∧
    (∀ bytes : List Nat, (∀ b ∈ bytes, b < 256) →
      base64ToBlob (blobToBase64 bytes) = bytes) := by
  constructor
  · intro e
    cases e <;> rfl
  · intro bytes h
    unfold base64ToBlob
    rw [splitCommaSecond_blob, b64_decode_encode bytes h]

/-- **C8 witness.**  The spec's own example: the 3-byte buffer
`[0x00, 0xFF, 0x10]` round-trips unchanged, and a concrete transcript
envelope round-trips unchanged. -/
theorem c8_roundTrip_witness :
    base64ToBlob (blobToBase64 [0, 255, 16]) = [0, 255, 16] ∧
    decodeEnvelope (encodeEnvelope (.transcript "hi" "en" 7))
        = some (.transcript "hi" "en" 7) :=
  ⟨c8_roundTrip.2 [0, 255, 16] (by decide), c8_roundTrip.1 _⟩

end LipSyncTranslator

namespace LipSyncTranslator

/-! ## Feature-matrix normalization (src/unnamed/part_001, STTService.normalize)

`normalize` z-scores the flat spectrogram with its own mean and standard
deviation and contains **no** guard for a zero standard deviation.  The JS
division `(x - mean) / std` never throws: with `std = 0` the numerator is 0
(zero variance forces every entry to equal the mean exactly), and `0 / 0` is
`NaN`.  JS division is modelled explicitly; `std = Math.sqrt(variance)` is
irrational in general, so `normalizeWith` takes the standard deviation as a
parameter — for the zero-variance case `Math.sqrt 0 = 0` exactly. -/

inductive JSVal where
  | num (q : ℚ)
  | nan
  | posInf
  | negInf
  deriving DecidableEq, Repr

/-- JavaScript division: `0/0 = NaN`, `±x/0 = ±Infinity`, otherwise exact. -/
def jsDiv (a b : ℚ) : JSVal :=
  if b = 0 then (if a = 0 then .nan else if 0 < a then .posInf else .negInf)
  else .num (a / b)

/-- `spectrogram.reduce((sum, val) => sum + val, 0) / spectrogram.length`. -/
def mean (xs : List ℚ) : ℚ :=
  xs.sum / (xs.length : ℚ)

/-- `spectrogram.reduce((sum, val) => sum + (val - mean) ** 2, 0) / length`. -/
def variance (xs : List ℚ) : ℚ :=
  (xs.map (fun x => (x - mean xs) ^ 2)).sum / (xs.length : ℚ)

/-- The normalization loop `normalized[i] = (spectrogram[i] - mean) / std`,
with the standard deviation supplied as a parameter. -/
def normalizeWith (xs : List ℚ) (std : ℚ) : List JSVal :=
  xs.map (fun x => jsDiv (x - mean xs) std)

theorem sum_zero_of_nonneg :
    ∀ (l : List ℚ), (∀ x ∈ l, 0 ≤ x) → l.sum = 0 → ∀ x ∈ l, x = 0 := by
  intro l
  induction l with
  | nil => intro _ _ x hx; simp at hx
  | cons a t ih =>
    intro h hsum x hx
    have ha : 0 ≤ a := h a (by simp)
    have ht : 0 ≤ t.sum := List.sum_nonneg (fun y hy => h y (by simp [hy]))
    rw [List.sum_cons] at hsum
    rcases List.mem_cons.mp hx with rfl | hx'
    · linarith
    · exact ih (fun y hy => h y (by simp [hy])) (by linarith) x hx'

/-- **C2, amended.**  There is no divide-by-zero guard: on a nonempty
zero-variance input the code performs the division anyway, and every output
entry is `NaN` (`0 / 0`); no exception is raised (the function is total). -/
theorem c2_zero_variance_nan (xs : List ℚ) (hne : xs ≠ [])
    (hvar : variance xs = 0) :
    normalizeWith xs 0 = xs.map (fun _ => JSVal.nan) := by
  have hlen : ((xs.length : ℚ)) ≠ 0 := by
    simpa using List.length_pos.mpr hne |>.ne'
  have hsum : (xs.map (fun x => (x - mean xs) ^ 2)).sum = 0 := by
    unfold variance at hvar
    rcases div_eq_zero_iff.mp hvar with h | h
    · exact h
    · exact absurd h hlen
  have hzero : ∀ x ∈ xs, x - mean xs = 0 := by
    intro x hx
    have hsq : (x - mean xs) ^ 2 = 0 :=
      sum_zero_of_nonneg _ (fun y hy => by
          obtain ⟨z, _, rfl⟩ := List.mem_map.mp hy
          positivity)
        hsum _ (List.mem_map_of_mem _ hx)
    exact pow_eq_zero_iff (by norm_num) |>.mp hsq
  unfold normalizeWith
  apply List.map_congr_left
  intro x hx
  rw [hzero x hx]
  simp [jsDiv]

/-- **C2, counterexample.**  The claim's fallback (output unchanged, or all
zeros) does not hold: the zero-variance input `[1, 1]` (standard deviation
0) normalizes to `[NaN, NaN]`, which is neither the input unchanged nor all
zeros. -/
theorem mean_one_one : mean [(1 : ℚ), 1] = 1 := by
  norm_num [mean]

theorem variance_one_one : variance [(1 : ℚ), 1] = 0 := by
  norm_num [variance, mean_one_one]

theorem normalizeWith_one_one : normalizeWith [(1 : ℚ), 1] 0 = [JSVal.nan, JSVal.nan] := by
  norm_num [normalizeWith, mean_one_one, jsDiv]

theorem c2_zero_variance_counterexample :
    variance [(1 : ℚ), 1] = 0 ∧
    normalizeWith [(1 : ℚ), 1] 0 = [JSVal.nan, JSVal.nan] ∧
    normalizeWith [(1 : ℚ), 1] 0 ≠ [JSVal.num 1, JSVal.num 1] ∧
    normalizeWith [(1 : ℚ), 1] 0 ≠ [JSVal.num 0, JSVal.num 0] := by
  refine ⟨variance_one_one, normalizeWith_one_one, ?_, ?_⟩ <;>
    simp [normalizeWith_one_one]

/-- **C2 witness.**  The amended theorem applied to `[1, 1]`. -/
theorem c2_zero_variance_nan_witness :
    normalizeWith [(1 : ℚ), 1] 0 = [JSVal.nan, JSVal.nan] := by
  simpa using c2_zero_variance_nan [(1 : ℚ), 1] (by simp) variance_one_one

/-! ## Mel-spectrogram framing (src/unnamed/part_001,
STTService.computeMelSpectrogram)

`frameSize = 400`, `hopSize = 160`, `numMels = 80`;
`numFrames = Math.floor((audio.length - frameSize) / hopSize) + 1`, and the
output buffer is `new Float32Array(numFrames * numMels)` — which **throws a
RangeError** whenever `numFrames` is negative (waveforms shorter than 240
samples), modelled as `none`.  The per-frame acoustic kernel
(Hamming window → direct DFT power spectrum → mel filterbank) is
transcendental float math; it is abstracted as the parameter `feat`,
applied to each frame's 400-sample slice, which the frame-count and
buffer-length claim does not depend on. -/

def frameSize : ℕ := 400
def hopSize : ℕ := 160
def numMels : ℕ := 80

/-- `Math.floor((audio.length - frameSize) / hopSize) + 1` as an integer. -/
def numFramesZ (len : ℕ) : ℤ :=
  ⌊(((len : ℚ) - 400) / 160)⌋ + 1

/-- The framing loop of `computeMelSpectrogram`: `none` models the
`RangeError` of a negative-length `Float32Array` allocation. -/
def computeMelSpectrogram (feat : ℕ → List ℚ → ℚ) (wav : List ℚ) :
    Option (List ℚ) :=
  if numFramesZ wav.length * (numMels : ℤ) < 0 then none
  else some ((List.range (numFramesZ wav.length).toNat).flatMap (fun frame =>
    (List.range numMels).map (fun mel =>
      feat mel ((wav.drop (frame * hopSize)).take frameSize))))

/-- **C3, amended.**  For every waveform of at least 240 samples (so that
the frame-count formula is non-negative), the spectrogram is produced and
its buffer length is exactly `numFrames * numBands` with
`numFrames = floor((len - 400) / 160) + 1` and `numBands = 80`.  (For
shorter waveforms the formula is negative and the buffer allocation
throws — see the counterexample.) -/
theorem c3_frame_count (feat : ℕ → List ℚ → ℚ) (wav : List ℚ)
    (h : 240 ≤ wav.length) :
    ∃ out, computeMelSpectrogram feat wav = some out ∧
      (out.length : ℤ) = numFramesZ wav.length * 80 ∧
      0 ≤ numFramesZ wav.length := by
  have h0 : (0 : ℤ) ≤ numFramesZ wav.length := by
    unfold numFramesZ
    have hfl : (-1 : ℤ) ≤ ⌊(((wav.length : ℚ) - 400) / 160)⌋ := by
      rw [Int.le_floor]
      have h240 : (240 : ℚ) ≤ (wav.length : ℚ) := by exact_mod_cast h
      push_cast
      rw [le_div_iff₀ (by norm_num : (0 : ℚ) < 160)]
      linarith
    omega
  have hif : ¬ (numFramesZ wav.length * (numMels : ℤ) < 0) := by
    have : (0 : ℤ) ≤ numFramesZ wav.length * (numMels : ℤ) :=
      mul_nonneg h0 (by norm_num [numMels])
    omega
  refine ⟨_, by unfold computeMelSpectrogram; rw [if_neg hif], ?_, h0⟩
  rw [List.length_flatMap]
  have hmap : ((List.range (numFramesZ wav.length).toNat).map
      (List.length ∘ (fun frame => (List.range numMels).map (fun mel =>
        feat mel ((wav.drop (frame * hopSize)).take frameSize)))))
      = List.replicate (numFramesZ wav.length).toNat 80 := by
    rw [List.eq_replicate_iff]
    constructor
    · simp
    · intro b hb
      obtain ⟨a, _, rfl⟩ := List.exists_of_mem_map hb
      simp [numMels]
  rw [hmap, List.sum_replicate, smul_eq_mul]
  push_cast [Int.toNat_of_nonneg h0]
  ring

/-- **C3 witness.**  The amended theorem at a 240-sample waveform (zero
frames, empty buffer). -/
theorem c3_frame_count_witness :
    ∃ out, computeMelSpectrogram (fun _ _ => 0) (List.replicate 240 (0 : ℚ)) = some out ∧
      (out.length : ℤ) = numFramesZ (List.replicate 240 (0 : ℚ)).length * 80 ∧
      0 ≤ numFramesZ (List.replicate 240 (0 : ℚ)).length :=
  c3_frame_count (fun _ _ => 0) (List.replicate 240 0)
    (by simp only [List.length_replicate]; omega)

/-- **C3, counterexample.**  For a 100-sample waveform the documented
formula gives `numFrames = floor((100 - 400)/160) + 1 = -1`, so the code
allocates a negative-length buffer and throws instead of producing
`numFrames` frames; the claim fails for this input waveform. -/
theorem c3_short_waveform_counterexample :
    computeMelSpectrogram (fun _ _ => 0) (List.replicate 100 (0 : ℚ)) = none := by
  have hfl : numFramesZ 100 = -1 := by
    unfold numFramesZ
    have hq : ⌊(((100 : ℕ) : ℚ) - 400) / 160⌋ = -2 := by
      rw [Int.floor_eq_iff] <;> norm_num
    rw [hq]
    norm_num
  unfold computeMelSpectrogram
  rw [List.length_replicate, hfl]
  norm_num [numMels]

end LipSyncTranslator

namespace LipSyncTranslator

/-! ## Resampling (src/unnamed/part_001, STTService.preprocessAudio and
STTService.resample)

`preprocessAudio` resamples iff `audioData.length !== 16000` — a gate on the
sample **count**, not on any sample rate; `resample` hardcodes the assumed
original sample rate 44100 and linearly interpolates at
`originalIndex = i / ratio` with `ratio = targetSampleRate / 44100`. -/

/-- `STTService.resample(audio, targetSampleRate)`. -/
def resample (wav : List ℚ) (targetSampleRate : ℚ) : List ℚ :=
  let ratio : ℚ := targetSampleRate / 44100
  let newLength : ℕ := (⌊(wav.length : ℚ) * ratio⌋).toNat
  (List.range newLength).map (fun (i : ℕ) =>
    let originalIndex : ℚ := (i : ℚ) / ratio
    let index1 : ℕ := (⌊originalIndex⌋).toNat
    let index2 : ℕ := min (index1 + 1) (wav.length - 1)
    let fraction : ℚ := originalIndex - (index1 : ℚ)
    wav.getD index1 0 * (1 - fraction) + wav.getD index2 0 * fraction)

/-- The resampling step of `preprocessAudio` (lines 84-89): resample to
16 kHz iff the waveform does not hold exactly 16000 samples. -/
def resampleStep (wav : List ℚ) : List ℚ :=
  if wav.length ≠ 16000 then resample wav 16000 else wav

/-- **C4, counterexample.**  The gate is the sample count, not the sample
rate: a waveform of exactly 16000 samples is passed through unchanged even
though the code's own assumed source rate (44100, `resample` line 108)
differs from the 16 kHz target — resampling it would have produced a
5804-sample waveform. -/
theorem c4_length_gate_counterexample :
    resampleStep (List.replicate 16000 (1 : ℚ)) = List.replicate 16000 1 ∧
    (resample (List.replicate 16000 (1 : ℚ)) 16000).length = 5804 := by
  constructor
  · unfold resampleStep
    rw [if_neg]
    simp only [List.length_replicate, ne_eq, not_true_eq_false, not_false_eq_true,
      not_not]
  · unfold resample
    simp only [List.length_map, List.length_range, List.length_replicate]
    have hq : ⌊((16000 : ℕ) : ℚ) * (16000 / 44100)⌋ = 5804 := by
      push_cast
      rw [Int.floor_eq_iff] <;> norm_num
    rw [hq]
    rfl

/-- **C4, amended.**  Resampling is applied iff the waveform length differs
from 16000 samples (the assumed source rate is hardcoded to 44100); when
applied, the output has `⌊len · ratio⌋` samples with `ratio = 16000/44100`,
and output sample `i` is the linear interpolation of the two neighbouring
input samples around `originalIndex = i / ratio`, blended by the fractional
distance. -/
theorem c4_resample_characterization (wav : List ℚ) :
    (wav.length = 16000 → resampleStep wav = wav) ∧
    (wav.length ≠ 16000 → resampleStep wav = resample wav 16000) ∧
    (resample wav 16000).length = (⌊(wav.length : ℚ) * (16000 / 44100)⌋).toNat ∧
    (∀ i (h : i < (resample wav 16000).length),
      (resample wav 16000).get ⟨i, h⟩ =
        wav.getD (⌊(i : ℚ) / (16000 / 44100)⌋).toNat 0
            * (1 - ((i : ℚ) / (16000 / 44100)
                - ((⌊(i : ℚ) / (16000 / 44100)⌋).toNat : ℚ)))
          + wav.getD (min ((⌊(i : ℚ) / (16000 / 44100)⌋).toNat + 1) (wav.length - 1)) 0
            * ((i : ℚ) / (16000 / 44100)
                - ((⌊(i : ℚ) / (16000 / 44100)⌋).toNat : ℚ))) := by
  refine ⟨?_, ?_, ?_, ?_⟩
  · intro h
    unfold resampleStep
    rw [if_neg (by simp [h])]
  · intro h
    unfold resampleStep
    rw [if_pos h]
  · unfold resample
    simp only [List.length_map, List.length_range]
  · intro i h
    unfold resample
    rw [List.get_map, List.get_range]

/-- **C4 witness.**  The amended characterization applied at a one-sample
waveform (length 1 ≠ 16000, so the resample branch is taken). -/
theorem c4_resample_characterization_witness :
    resampleStep [(0 : ℚ)] = resample [0] 16000 :=
  (c4_resample_characterization [0]).2.1 (by simp)

end LipSyncTranslator

namespace LipSyncTranslator

/-! ## Dictionary translation fallback (src/services/mt.js, DictionaryMT)

`translate` lowercases the text, splits it on `/\s+/`, maps each word to its
dictionary entry (or itself via `dictionary[word] || word`), and joins with
single spaces; an unsupported language pair throws.  The dictionaries are
object literals, modelled as association lists of own properties. -/

def dictEnEs : List (String × String) :=
  [("hello", "hola"), ("goodbye", "adiós"), ("thank you", "gracias"),
   ("please", "por favor"), ("yes", "sí"), ("no", "no"),
   ("how are you", "cómo estás"), ("good morning", "buenos días"),
   ("good afternoon", "buenas tardes"), ("good night", "buenas noches"),
   ("what is your name", "cómo te llamas"), ("my name is", "me llamo"),
   ("nice to meet you", "encantado de conocerte"),
   ("where are you from", "de dónde eres"), ("i am from", "soy de"),
   ("do you speak english", "hablas inglés"),
   ("do you speak spanish", "hablas español"), ("i understand", "entiendo"),
   ("i do not understand", "no entiendo"), ("can you help me", "puedes ayudarme"),
   ("excuse me", "disculpa"), ("sorry", "lo siento"), ("good", "bueno"),
   ("bad", "malo"), ("big", "grande"), ("small", "pequeño"),
   ("hot", "caliente"), ("cold", "frío"), ("water", "agua"),
   ("food", "comida"), ("house", "casa"), ("car", "coche"),
   ("time", "tiempo"), ("day", "día"), ("night", "noche"),
   ("today", "hoy"), ("tomorrow", "mañana"), ("yesterday", "ayer")]

def dictEsEn : List (String × String) :=
  [("hola", "hello"), ("adiós", "goodbye"), ("gracias", "thank you"),
   ("por favor", "please"), ("sí", "yes"), ("no", "no"),
   ("cómo estás", "how are you"), ("buenos días", "good morning"),
   ("buenas tardes", "good afternoon"), ("buenas noches", "good night"),
   ("cómo te llamas", "what is your name"), ("me llamo", "my name is"),
   ("encantado de conocerte", "nice to meet you"),
   ("de dónde eres", "where are you from"), ("soy de", "i am from"),
   ("hablas inglés", "do you speak english"),
   ("hablas español", "do you speak spanish"), ("entiendo", "i understand"),
   ("no entiendo", "i do not understand"), ("puedes ayudarme", "can you help me"),
   ("disculpa", "excuse me"), ("lo siento", "sorry"), ("bueno", "good"),
   ("malo", "bad"), ("grande", "big"), ("pequeño", "small"),
   ("caliente", "hot"), ("frío", "cold"), ("agua", "water"),
   ("comida", "food"), ("casa", "house"), ("coche", "car"),
   ("tiempo", "time"), ("día", "day"), ("noche", "night"),
   ("hoy", "today"), ("mañana", "tomorrow"), ("ayer", "yesterday")]

def dictionaries : List (String × List (String × String)) :=
  [("en-es", dictEnEs), ("es-en", dictEsEn)]

/-- The word-mapping stage: lowercase, split on whitespace, map each word
through `dictionary[word] || word`. -/
def mapWords (dictionary : List (String × String)) (text : String) : List String :=
  (splitWS (jsToLower text).toList).map
    (fun w => (dictionary.lookup (String.mk w)).getD (String.mk w))

/-- `DictionaryMT.translate`: look up the `"src-tgt"` dictionary (throwing
`Translation not supported` when absent), map the words, join with single
spaces. -/
def dictTranslate (text sourceLang targetLang : String) : Except String String :=
  match dictionaries.lookup (sourceLang ++ "-" ++ targetLang) with
  | none => Except.error ("Translation not supported: " ++ sourceLang ++ " to " ++ targetLang)
  | some dictionary => Except.ok (String.intercalate " " (mapWords dictionary text))

/-- A piece produced by `splitWS` never contains a whitespace character. -/
theorem splitWSGo_no_space :
    ∀ (s : List Char) (inRun : Bool) (acc : List Char),
      (∀ c ∈ acc, isJsSpace c = false) →
      ∀ w ∈ splitWSGo inRun s acc, ∀ c ∈ w, isJsSpace c = false
  | [], _, acc, hacc, w, hw => by
    simp only [splitWSGo, List.mem_singleton] at hw
    subst hw
    intro c hc
    exact hacc c (List.mem_reverse.mp hc)
  | c :: rest, inRun, acc, hacc, w, hw => by
    unfold splitWSGo at hw
    by_cases hsp : isJsSpace c
    · rw [if_pos hsp] at hw
      by_cases hir : inRun
      · rw [if_pos hir] at hw
        exact splitWSGo_no_space rest true [] (by simp) w hw
      · rw [if_neg hir] at hw
        rcases List.mem_cons.mp hw with rfl | hw'
        · intro d hd
          exact hacc d (List.mem_reverse.mp hd)
        · exact splitWSGo_no_space rest true [] (by simp) w hw'
    · rw [if_neg hsp] at hw
      refine splitWSGo_no_space rest false (c :: acc) ?_ w hw
      intro d hd
      rcases List.mem_cons.mp hd with rfl | hd'
      · exact Bool.eq_false_iff.mpr hsp
      · exact hacc d hd'

/-- Whether a dictionary entry's key is whitespace-free. -/
def keyNoWS (p : String × String) : Bool :=
  p.1.toList.all (fun c => !isJsSpace c)

/-- Looking up a whitespace-free key never hits an entry whose key contains
whitespace. -/
theorem lookup_filter_keyNoWS (d : List (String × String)) (w : List Char)
    (hw : ∀ c ∈ w, isJsSpace c = false) :
    d.lookup (String.mk w) = (d.filter keyNoWS).lookup (String.mk w) := by
  induction d with
  | nil => rfl
  | cons p t ih =>
    obtain ⟨k, v⟩ := p
    by_cases hk : k = String.mk w
    · subst hk
      have hkeep : keyNoWS (String.mk w, v) = true := by
        simp only [keyNoWS, List.all_eq_true]
        intro c hc
        have hcw : c ∈ w := by simpa [String.toList] using hc
        simpa using hw c hcw
      simp [List.lookup, List.filter, hkeep]
    · have hne : (String.mk w == k) = false :=
        beq_eq_false_iff_ne.mpr (fun hcontra => hk hcontra.symm)
      by_cases hkeep : keyNoWS (k, v) = true
      · simp [List.lookup, List.filter, hkeep, hne, ih]
      · simp only [Bool.not_eq_true] at hkeep
        simp [List.lookup, List.filter, hkeep, hne, ih]

/-- **C10, amended.**  Dictionary translation lowercases, splits on
whitespace, maps each word independently (entry if present, else the word
itself) and joins with single spaces; a dictionary key containing whitespace
never matches (deleting all such entries changes no translation), and the
number of *mapped* words equals the number of input words — but the output
string's whitespace word count can exceed the input's, because dictionary
*values* may contain spaces (see the counterexample). -/
theorem c10_word_map (d : List (String × String)) (text : String) :
    mapWords d text = mapWords (d.filter keyNoWS) text ∧
    (mapWords d text).length = (splitWS (jsToLower text).toList).length := by
  constructor
  · unfold mapWords
    apply List.map_congr_left
    intro w hw
    rw [lookup_filter_keyNoWS d w
      (splitWSGo_no_space (jsToLower text).toList false [] (by simp) w hw)]
  · simp [mapWords]

/-- **C10, counterexample.**  The claim's word-count consequence fails: the
single word `"please"` translates (en→es) to the two-word string
`"por favor"`, because dictionary values may contain whitespace. -/
theorem c10_multiword_value_counterexample :
    dictTranslate "please" "en" "es" = Except.ok "por favor" ∧
    (splitWS "please".toList).length = 1 ∧
    (splitWS "por favor".toList).length = 2 := by
  refine ⟨rfl, rfl, rfl⟩

end LipSyncTranslator
